import Mathlib

/-!
# Verification of the local-audio-manager filesystem-synchronization core

Shallow embedding, in Lean 4, of the parts of the repository that the spec's
claims are about:

* `app/helpers/audio_helpers.py` — the supported-format filter,
* `app/services/db_service.py` — the SQLite-backed catalog (`DBService`),
* `app/services/index_service.py` — the indexer (`IndexService._process_file`),
* `app/services/watch_service.py` — the debounce coordinator
  (`AudioFileHandler`) and the watch session (`WatchService`).

Python strings are Lean `String`s; `pathlib.Path` values are represented by
their string form, with `name`/`suffix` computed exactly as CPython's
`pathlib` computes them.  The SQLite `tracks` table (whose `path` column is
`UNIQUE`) is a list of records, with `INSERT OR IGNORE` meaning "append
unless the path is already present".  External collaborators (the `mutagen`
tag reader, the OS filesystem, `threading.Timer`) are supplied as explicit
oracle data on each transition, and exceptions in the Python code are
modelled by explicit outcome constructors.
-/

/-- ASCII lowercase of a string.  Python's `str.lower()` is Unicode-aware but
agrees with ASCII lowercasing on all strings appearing in this development
(`Char.toLower` lowercases exactly the ASCII uppercase letters). -/
def asciiLower (s : String) : String :=
  String.mk (s.toList.map Char.toLower)

/-- Bool-valued substring test on character lists: does `needle` occur
contiguously inside `hay`?  This is Python's `needle in hay` on strings. -/
def listContainsSub (hay needle : List Char) : Bool :=
  match hay with
  | [] => needle.isEmpty
  | _ :: t => needle.isPrefixOf hay || listContainsSub t needle

/-- Python's substring containment `needle in hay`. -/
def strContains (hay needle : String) : Bool :=
  listContainsSub hay.toList needle.toList

/-- `pathlib.PurePath.name`: the final path component (text after the last
slash).  Paths in this development never end in a slash. -/
def pathName (s : String) : String :=
  String.mk (s.toList.foldl (fun acc c => if c = '/' then [] else acc ++ [c]) [])

/-- Index of the last occurrence of `'.'` in a character list (Python's
`str.rfind`), `none` when absent. -/
def rfindDot (cs : List Char) : Option Nat :=
  (List.range cs.length).foldl
    (fun acc i => if cs.getD i ' ' = '.' then some i else acc) none

/-- `pathlib.PurePath.suffix`, following CPython:
`i = name.rfind('.'); return name[i:] if 0 < i < len(name) - 1 else ''`. -/
def pathSuffix (s : String) : String :=
  let cs := (pathName s).toList
  match rfindDot cs with
  | some i => if 0 < i ∧ i < cs.length - 1 then String.mk (cs.drop i) else ""
  | none => ""

/-! ## `app/helpers/audio_helpers.py` -/

/-- `SUPPORTED_EXTENSIONS = {".mp3", ".wav", ".flac"}` -/
def SUPPORTED_EXTENSIONS : List String := [".mp3", ".wav", ".flac"]

/-- `is_supported_audio(path) = path.suffix.lower() in SUPPORTED_EXTENSIONS` -/
def is_supported_audio (path : String) : Bool :=
  SUPPORTED_EXTENSIONS.contains (asciiLower (pathSuffix path))

/-! ## `app/services/watch_service.py`, module level -/

/-- `TEMP_EXTENSIONS = {'.part', '.crdownload', '.tmp', '.download', '.!qB'}`
(the mixed-case `.!qB` entry is verbatim from the source). -/
def TEMP_EXTENSIONS : List String :=
  [".part", ".crdownload", ".tmp", ".download", ".!qB"]

/-- `AudioFileHandler._is_temp_file`:
`path.suffix.lower() in TEMP_EXTENSIONS or '.part' in path.name.lower()`. -/
def is_temp_file (path : String) : Bool :=
  TEMP_EXTENSIONS.contains (asciiLower (pathSuffix path)) ||
    strContains (asciiLower (pathName path)) ".part"

/-! ## `app/services/db_service.py` -/

/-- An SQLite storage value, as relevant to the `tracks` table: Python
strings, Python numbers (ints and floats are both carried as `Int` here —
the code only passes numeric values through, never computes with them, so
the verdicts below are representation-independent) and `NULL`. -/
inductive Val where
  | str (s : String)
  | num (n : Int)
  | null
deriving DecidableEq, Repr

/-- One row of the `tracks` table
(`path TEXT UNIQUE, title TEXT, artist TEXT, album TEXT, genre TEXT,
year INTEGER, duration REAL`).  The `id INTEGER PRIMARY KEY` rowkey plays no
role in any claim and is omitted. -/
structure TrackRecord where
  path : String
  title : String
  artist : String
  album : String
  genre : Val
  year : Val
  duration : Val
deriving DecidableEq, Repr

/-- The `tracks` table: a list of rows.  The `UNIQUE` constraint on `path`
is what `INSERT OR IGNORE` interacts with in `add_track`. -/
abbrev DB := List TrackRecord

namespace DBService

/-- `track_exists(path)`: `SELECT 1 FROM tracks WHERE path = ?` is non-empty. -/
def track_exists (db : DB) (path : String) : Bool :=
  db.any (fun r => r.path = path)

/-- `add_track(self, path, title="", artist="", album="", genre="", year=None,
duration=0)`: `INSERT OR IGNORE INTO tracks (path, title, artist, album,
genre, year, duration) VALUES (...)`.  With `path` `UNIQUE`, `OR IGNORE`
means: if a row with this path exists, do nothing; otherwise append the row.
All seven parameters are taken explicitly here; a call site that, like the
Python, omits trailing arguments supplies the Python defaults
(`genre=""`, `year=None`, `duration=0`) itself. -/
def add_track (db : DB) (path title artist album : String)
    (genre year duration : Val) : DB :=
  if track_exists db path then db
  else db ++ [⟨path, title, artist, album, genre, year, duration⟩]

/-- `update_track(self, path, title=None, artist=None, album=None, genre=None,
year=None)`: builds `UPDATE tracks SET ... WHERE path = ?` from the non-None
arguments; when every argument is None no statement is executed. -/
def update_track (db : DB) (path : String)
    (title artist album genre : Option String) (year : Option Int) : DB :=
  if title = none ∧ artist = none ∧ album = none ∧ genre = none ∧ year = none
  then db
  else db.map (fun r =>
    if r.path = path then
      { r with
        title := title.getD r.title
        artist := artist.getD r.artist
        album := album.getD r.album
        genre := match genre with | some g => Val.str g | none => r.genre
        year := match year with | some y => Val.num y | none => r.year }
    else r)

/-- `delete_track(path)`: `DELETE FROM tracks WHERE path = ?`. -/
def delete_track (db : DB) (path : String) : DB :=
  db.filter (fun r => r.path ≠ path)

/-- `get_all_tracks()`: `SELECT * FROM tracks`. -/
def get_all_tracks (db : DB) : List TrackRecord := db

end DBService

/-! ## `app/services/index_service.py` -/

/-- The result of `mutagen.File(str(file_path), easy=True)` when it returns:
`none` models mutagen returning `None` (unrecognised container); otherwise
the easy-tag view the code reads.  `title`/`artist`/`album` are the values of
`audio.get(tag, [""])[0]`, i.e. already defaulted to `""` when the tag is
absent; `hasInfo` is `hasattr(audio, "info")` and `length` is
`audio.info.length` (the duration; an opaque pass-through number here). -/
structure AudioMeta where
  title : String
  artist : String
  album : String
  hasInfo : Bool
  length : Int
deriving DecidableEq, Repr

/-- Outcome of the `mutagen.File` call inside `_process_file`'s `try`. -/
inductive ReadResult where
  /-- the call raised (caught by the surrounding `except Exception`) -/
  | exc
  /-- the call returned `audio` (possibly `None`) -/
  | tags (audio : Option AudioMeta)
deriving DecidableEq, Repr

/-- Filesystem/tag-reader oracle for one `IndexService._process_file` call:
the value of its `file_path.exists()` check and of its `mutagen.File` call. -/
structure IndexOracle where
  fileExists : Bool
  read : ReadResult
deriving DecidableEq, Repr

namespace IndexService

/-- `IndexService._process_file(file_path)`.  Faithful to the source,
including its call of `add_track`:

```
self.db.add_track(str(file_path), title, artist, album, duration)
```

is a *positional* call of
`add_track(self, path, title="", artist="", album="", genre="", year=None,
duration=0)`, so Python binds `duration` (the fifth positional argument) to
the parameter `genre`, and the parameters `year` and `duration` take their
defaults `None` and `0`.  The embedding spells those bindings out. -/
def process_file (orc : IndexOracle) (db : DB) (path : String) : DB :=
  if orc.fileExists = false then db
  else match orc.read with
    | ReadResult.exc => db
    | ReadResult.tags audio =>
      let title := match audio with | some a => a.title | none => ""
      let artist := match audio with | some a => a.artist | none => ""
      let album := match audio with | some a => a.album | none => ""
      let duration : Int := match audio with
        | some a => if a.hasInfo then a.length else 0
        | none => 0
      DBService.add_track db path title artist album
        (Val.num duration) Val.null (Val.num 0)

end IndexService

/-! ## Basic catalog lemmas -/

/-- The list of path keys of a catalog state. -/
def pathsOf (db : DB) : List String :=
  db.map (fun r => r.path)

/-- `track_exists` is membership of the path among the catalog's path keys. -/
theorem track_exists_iff_mem_pathsOf (db : DB) (p : String) :
    DBService.track_exists db p = true ↔ p ∈ pathsOf db := by
  unfold DBService.track_exists pathsOf
  constructor
  · intro h
    obtain ⟨r, hr, he⟩ := List.any_eq_true.mp h
    exact List.mem_map.mpr ⟨r, hr, of_decide_eq_true he⟩
  · intro h
    obtain ⟨r, hr, he⟩ := List.mem_map.mp h
    exact List.any_eq_true.mpr ⟨r, hr, by simp [he]⟩

/-- `add_track` preserves uniqueness of the path keys. -/
theorem add_track_pathsOf_nodup (db : DB) (p t a alb : String) (g y d : Val)
    (h : (pathsOf db).Nodup) :
    (pathsOf (DBService.add_track db p t a alb g y d)).Nodup := by
  by_cases hex : DBService.track_exists db p = true
  · simpa [DBService.add_track, hex] using h
  · have hnm : ∀ r ∈ db, r.path ≠ p := by
      intro r hr he
      exact hex ((track_exists_iff_mem_pathsOf db p).mpr
        (List.mem_map.mpr ⟨r, hr, he⟩))
    simp only [DBService.add_track, hex, if_false, Bool.false_eq_true]
    simpa [pathsOf, List.nodup_append] using ⟨h, hnm⟩

/-- `add_track` on an already-present path is the identity on the catalog. -/
theorem add_track_of_exists (db : DB) (p t a alb : String) (g y d : Val)
    (hex : DBService.track_exists db p = true) :
    DBService.add_track db p t a alb g y d = db := by
  simp [DBService.add_track, hex]

/-- One recorded `add_track(path, title, artist, album, genre, year, duration)`
call. -/
structure AddArgs where
  path : String
  title : String
  artist : String
  album : String
  genre : Val
  year : Val
  duration : Val
deriving DecidableEq, Repr

/-- Apply a sequence of `add_track` calls to a catalog state. -/
def runAdds (db : DB) (calls : List AddArgs) : DB :=
  calls.foldl
    (fun d c =>
      DBService.add_track d c.path c.title c.artist c.album c.genre c.year c.duration)
    db

/-- A sequence of `add_track` calls preserves uniqueness of path keys. -/
theorem runAdds_pathsOf_nodup (calls : List AddArgs) (db : DB)
    (h : (pathsOf db).Nodup) : (pathsOf (runAdds db calls)).Nodup := by
  induction calls generalizing db with
  | nil => exact h
  | cons c cs ih =>
    exact ih _ (add_track_pathsOf_nodup db c.path c.title c.artist c.album
      c.genre c.year c.duration h)

/-- Claim C8: the catalog insert is idempotent on path — starting from a
catalog whose path keys are unique (in particular the empty one), any
sequence of `add_track` calls leaves the path keys unique (at most one record
per path), and an `add_track` call for a path that already exists leaves the
catalog exactly as it was, never creating a duplicate record. -/
theorem claim8_add_track_idempotent_on_path (db : DB) (calls : List AddArgs)
    (p t a alb : String) (g y d : Val)
    (hnd : (pathsOf db).Nodup) (hex : DBService.track_exists db p = true) :
    (pathsOf (runAdds db calls)).Nodup ∧
      DBService.add_track db p t a alb g y d = db :=
  ⟨runAdds_pathsOf_nodup calls db hnd, add_track_of_exists db p t a alb g y d hex⟩

/-- Witness for C8 at a concrete input: two inserts of the same path starting
from the empty catalog keep the path keys unique, and re-inserting the
already-present path is a no-op. -/
theorem claim8_witness :
    (pathsOf (runAdds
        [⟨"/m/a.mp3", "", "", "", Val.str "", Val.null, Val.num 0⟩]
        [⟨"/m/a.mp3", "T", "A", "B", Val.str "G", Val.num 2001, Val.num 185⟩,
         ⟨"/m/b.mp3", "", "", "", Val.str "", Val.null, Val.num 0⟩])).Nodup ∧
      DBService.add_track
        [⟨"/m/a.mp3", "", "", "", Val.str "", Val.null, Val.num 0⟩]
        "/m/a.mp3" "T" "A" "B" (Val.str "G") (Val.num 2001) (Val.num 185)
      = [⟨"/m/a.mp3", "", "", "", Val.str "", Val.null, Val.num 0⟩] :=
  claim8_add_track_idempotent_on_path
    [⟨"/m/a.mp3", "", "", "", Val.str "", Val.null, Val.num 0⟩]
    [⟨"/m/a.mp3", "T", "A", "B", Val.str "G", Val.num 2001, Val.num 185⟩,
     ⟨"/m/b.mp3", "", "", "", Val.str "", Val.null, Val.num 0⟩]
    "/m/a.mp3" "T" "A" "B" (Val.str "G") (Val.num 2001) (Val.num 185)
    (by decide) (by decide)

/-- Claim C9 (implicit): for a path already present in the catalog,
`add_track` — and therefore `IndexService._process_file` run on that path,
whatever the filesystem and tag reader return — leaves the catalog state
entirely unchanged: every field of the existing record keeps its old value,
so re-indexing never refreshes stored metadata. -/
theorem claim9_add_track_frame_on_existing (db : DB) (path t a alb : String)
    (g y d : Val) (orc : IndexOracle)
    (hex : DBService.track_exists db path = true) :
    DBService.add_track db path t a alb g y d = db ∧
      IndexService.process_file orc db path = db := by
  refine ⟨add_track_of_exists db path t a alb g y d hex, ?_⟩
  unfold IndexService.process_file
  rcases orc with ⟨fe, rd⟩
  cases fe
  · rfl
  · cases rd with
    | exc => rfl
    | tags audio => exact add_track_of_exists db path _ _ _ _ _ _ hex

/-- Witness for C9 at a concrete input: re-processing an already-catalogued
path with fresh tag data changes nothing in the catalog. -/
theorem claim9_witness :
    DBService.add_track
        [⟨"/m/a.mp3", "Old", "O", "O", Val.str "OldG", Val.num 1999, Val.num 7⟩]
        "/m/a.mp3" "New" "N" "N" (Val.str "NewG") (Val.num 2020) (Val.num 9)
      = [⟨"/m/a.mp3", "Old", "O", "O", Val.str "OldG", Val.num 1999, Val.num 7⟩] ∧
      IndexService.process_file
        ⟨true, ReadResult.tags (some ⟨"New", "N", "N", true, 9⟩)⟩
        [⟨"/m/a.mp3", "Old", "O", "O", Val.str "OldG", Val.num 1999, Val.num 7⟩]
        "/m/a.mp3"
      = [⟨"/m/a.mp3", "Old", "O", "O", Val.str "OldG", Val.num 1999, Val.num 7⟩] :=
  claim9_add_track_frame_on_existing
    [⟨"/m/a.mp3", "Old", "O", "O", Val.str "OldG", Val.num 1999, Val.num 7⟩]
    "/m/a.mp3" "New" "N" "N" (Val.str "NewG") (Val.num 2020) (Val.num 9)
    ⟨true, ReadResult.tags (some ⟨"New", "N", "N", true, 9⟩)⟩
    (by decide)

/-- Claim C1, evaluated at a concrete failing input: a readable audio file at
`/m/song.mp3` with tags `Song`/`Artist`/`Album` and duration `185`, not yet
in the catalog.  `_process_file` calls
`add_track(str(file_path), title, artist, album, duration)` positionally, so
the created record carries the *duration* in its `genre` field and `0` in
its `duration` field — refuting, at this input, the claim that the record's
duration field equals the duration read from the file and its genre field
the genre read from the tags. -/
theorem claim1_duration_lands_in_genre_field :
    IndexService.process_file
        ⟨true, ReadResult.tags (some ⟨"Song", "Artist", "Album", true, 185⟩)⟩
        [] "/m/song.mp3"
      = [⟨"/m/song.mp3", "Song", "Artist", "Album",
          Val.num 185, Val.null, Val.num 0⟩] := by
  decide

/-- Claim C10 (implicit): the mixed-case entry `.!qB` is in the
transient-extension set, yet for every path whose lowercased name does not
contain `.part` and whose extension is `.!qB` in any letter-case (so its
lowercased suffix is `.!qb`), `_is_temp_file` returns `False`: the
lowercased-suffix membership test can never match the mixed-case entry. -/
theorem claim10_qB_extension_never_matches (p : String)
    (h1 : strContains (asciiLower (pathName p)) ".part" = false)
    (h2 : asciiLower (pathSuffix p) = ".!qb") :
    ".!qB" ∈ TEMP_EXTENSIONS ∧ is_temp_file p = false := by
  refine ⟨by decide, ?_⟩
  unfold is_temp_file
  rw [h1, h2]
  decide

/-- Witness for C10 at the concrete path `/d/file.!qB`: the file is not
recognised as a temporary download file. -/
theorem claim10_witness :
    ".!qB" ∈ TEMP_EXTENSIONS ∧ is_temp_file "/d/file.!qB" = false :=
  claim10_qB_extension_never_matches "/d/file.!qB" (by decide) (by decide)

/-! ## `app/services/watch_service.py`: the `AudioFileHandler` machine

The handler's two dicts (`_pending_files`, `_pending_timers`) are embedded as
association lists with Python-dict semantics (unique keys; assignment
overwrites).  `threading.Timer` objects are given fresh numeric identities:
`armed` records every timer ever created and started (id, captured `path`,
captured `event_type`), `canceled` the ids on which `.cancel()` was called,
and `fired` the ids whose callback has run.  A timer whose callback has not
run and which has not been canceled is *live*; the idealised timer semantics
(a canceled timer never runs its callback — the race between `cancel()` and
an already-started callback is outside this model) is expressed by letting
only live timers fire.  All bookkeeping mutations happen under `self._lock`
in the source, so each transition here is one atomic step. -/

/-- Python-dict lookup `d[k]` / `k in d` on an association list. -/
def dictGet {α : Type} (l : List (String × α)) (k : String) : Option α :=
  (l.find? (fun e => e.1 = k)).map (fun e => e.2)

/-- Python-dict deletion `del d[k]` (no-op when the key is absent; the source
always guards deletions with `if k in d`). -/
def dictDel {α : Type} (l : List (String × α)) (k : String) : List (String × α) :=
  l.filter (fun e => e.1 ≠ k)

/-- Python-dict assignment `d[k] = v` (overwrites any previous binding). -/
def dictSet {α : Type} (l : List (String × α)) (k : String) (v : α) :
    List (String × α) :=
  (k, v) :: dictDel l k

/-- A `threading.Timer` created by `_schedule_process`: its identity, and the
`path` and `event_type` captured by its `process_file` closure. -/
structure Timer where
  id : Nat
  path : String
  eventType : String
deriving DecidableEq, Repr

/-- The mutable state of one `AudioFileHandler` (plus the catalog it writes
through `DBService`, the count of `update_signal.emit()` calls, and — as an
observation log — the list of paths passed to
`index_service._process_file`). -/
structure HandlerState where
  /-- `self._pending_files` : path → event type -/
  pending_files : List (String × String)
  /-- `self._pending_timers` : path → timer id -/
  pending_timers : List (String × Nat)
  /-- every timer ever created and started, with its closure's captures -/
  armed : List Timer
  /-- ids of timers on which `.cancel()` was called -/
  canceled : List Nat
  /-- ids of timers whose callback has run -/
  fired : List Nat
  /-- source of fresh timer identities -/
  nextId : Nat
  /-- the shared `DBService` table -/
  db : DB
  /-- number of `update_signal.emit()` calls so far -/
  emits : Nat
  /-- paths passed to `index_service._process_file`, in order -/
  indexed : List String
deriving DecidableEq, Repr

/-- A timer is live when it has been armed but neither canceled nor fired:
only such a timer can still run its callback. -/
def isLive (st : HandlerState) (tid : Nat) : Bool :=
  (st.armed.any (fun t => t.id = tid)) &&
    !(st.canceled.contains tid) && !(st.fired.contains tid)

/-- `AudioFileHandler._schedule_process(path, event_type)`: under the lock,
cancel the timer currently registered for the path (if any), then create,
register and start a fresh timer, and record the event type in
`_pending_files`. -/
def schedule_process (st : HandlerState) (path eventType : String) :
    HandlerState :=
  let canceled :=
    match dictGet st.pending_timers path with
    | some tid => tid :: st.canceled
    | none => st.canceled
  { st with
    canceled := canceled
    armed := st.armed ++ [⟨st.nextId, path, eventType⟩]
    pending_timers := dictSet st.pending_timers path st.nextId
    pending_files := dictSet st.pending_files path eventType
    nextId := st.nextId + 1 }

/-- Outcome of the size-stability probe inside the timer callback
(`size1 = stat().st_size; sleep(0.5); size2 = stat().st_size`): either the
two sampled sizes, or a raised read error (permission denied, file
disappeared), which the source catches with `except Exception: pass`. -/
inductive ProbeOutcome where
  | sizes (size1 size2 : Nat)
  | readError
deriving DecidableEq, Repr

/-- Oracle data consumed by one run of the timer callback `process_file`:
the value of its initial `path.exists()` check, the probe outcome, and the
oracle for the `IndexService._process_file` call it may make. -/
structure FireOracle where
  pathExists : Bool
  probe : ProbeOutcome
  ix : IndexOracle
deriving DecidableEq, Repr

/-- The tail of the timer callback once the file is to be processed:
`self.index_service._process_file(path); self.update_signal.emit()`
(`_process_file` never raises — it catches internally — so the emit always
follows). -/
def processAndEmit (st : HandlerState) (path : String) (orc : IndexOracle) :
    HandlerState :=
  { st with
    db := IndexService.process_file orc st.db path
    emits := st.emits + 1
    indexed := st.indexed ++ [path] }

/-- The timer callback `process_file` defined inside `_schedule_process`,
fired for the live timer `tid` (a non-live id makes this the identity: a
canceled timer never runs, a fired one never runs twice).  Under the lock it
removes the path's entries from both dicts; then: if the path no longer
exists, return; probe the size twice — on unequal sizes reschedule via
`_schedule_process(path, event_type)`, on a read error fall through
(`except Exception: pass`) — and finally process the file and emit. -/
def fireTimer (st : HandlerState) (tid : Nat) (orc : FireOracle) :
    HandlerState :=
  match st.armed.find? (fun t => t.id = tid) with
  | none => st
  | some t =>
    if isLive st tid then
      let st1 : HandlerState :=
        { st with
          fired := tid :: st.fired
          pending_files := dictDel st.pending_files t.path
          pending_timers := dictDel st.pending_timers t.path }
      if orc.pathExists = false then st1
      else
        match orc.probe with
        | ProbeOutcome.sizes s1 s2 =>
          if s1 ≠ s2 then schedule_process st1 t.path t.eventType
          else processAndEmit st1 t.path orc.ix
        | ProbeOutcome.readError => processAndEmit st1 t.path orc.ix
    else st

/-- `AudioFileHandler.on_created` (file events only; directory events return
immediately and are not modelled): ignore temporary download files, schedule
supported audio with event type `"new"`. -/
def on_created (st : HandlerState) (path : String) : HandlerState :=
  if is_temp_file path then st
  else if is_supported_audio path then schedule_process st path "new"
  else st

/-- `AudioFileHandler.on_modified` (file events only): ignore temporary
download files, schedule supported audio that exists with event type
`"modified"`.  `pathExists` is the oracle for `path.exists()`. -/
def on_modified (st : HandlerState) (path : String) (pathExists : Bool) :
    HandlerState :=
  if is_temp_file path then st
  else if is_supported_audio path && pathExists then
    schedule_process st path "modified"
  else st

/-- `AudioFileHandler.on_deleted` (file events only): for supported audio,
delete the track from the catalog and emit; pending bookkeeping is not
touched. -/
def on_deleted (st : HandlerState) (path : String) : HandlerState :=
  if is_supported_audio path then
    { st with
      db := DBService.delete_track st.db path
      emits := st.emits + 1 }
  else st

/-- `AudioFileHandler.on_moved` (file events only).  `newExists` is the
oracle for `new_path.exists()` (read once per event here; the source reads
it at most twice in one handler invocation). -/
def on_moved (st : HandlerState) (oldPath newPath : String)
    (newExists : Bool) : HandlerState :=
  if is_temp_file oldPath || is_temp_file newPath then
    -- moving FROM a temp file TO audio is a completed download
    if is_temp_file oldPath && (is_supported_audio newPath && newExists) then
      schedule_process st newPath "moved"
    else st
  else if is_supported_audio newPath && newExists then
    -- cancel any pending processing for the old path
    let st1 :=
      match dictGet st.pending_timers oldPath with
      | some tid =>
        { st with
          canceled := tid :: st.canceled
          pending_files := dictDel st.pending_files oldPath
          pending_timers := dictDel st.pending_timers oldPath }
      | none => st
    -- delete old entry, then schedule processing of the new file
    let st2 := { st1 with db := DBService.delete_track st1.db oldPath }
    schedule_process st2 newPath "moved"
  else if is_supported_audio oldPath then
    { st with
      db := DBService.delete_track st.db oldPath
      emits := st.emits + 1 }
  else st

/-- One observable event delivered to a handler: the four watchdog callbacks
(with their filesystem oracles) and the firing of a timer (with its
oracles). -/
inductive WEvent where
  | created (path : String)
  | modified (path : String) (pathExists : Bool)
  | deleted (path : String)
  | moved (oldPath newPath : String) (newExists : Bool)
  | fire (tid : Nat) (orc : FireOracle)
deriving DecidableEq, Repr

/-- Interleaving semantics: one event at a time against the handler state. -/
def step (st : HandlerState) : WEvent → HandlerState
  | WEvent.created path => on_created st path
  | WEvent.modified path pe => on_modified st path pe
  | WEvent.deleted path => on_deleted st path
  | WEvent.moved oldPath newPath ne => on_moved st oldPath newPath ne
  | WEvent.fire tid orc => fireTimer st tid orc

/-- Run a sequence of events. -/
def run (st : HandlerState) (evs : List WEvent) : HandlerState :=
  evs.foldl step st

/-- A freshly constructed `AudioFileHandler` over a catalog state `db`:
both dicts empty, no timers. -/
def initHandler (db : DB) : HandlerState :=
  ⟨[], [], [], [], [], 0, db, 0, []⟩

/-! ## Dictionary lemmas -/

theorem mem_dictDel {α : Type} {l : List (String × α)} {k : String}
    {e : String × α} : e ∈ dictDel l k ↔ e ∈ l ∧ e.1 ≠ k := by
  simp [dictDel, List.mem_filter]

theorem mem_dictSet {α : Type} {l : List (String × α)} {k : String} {v : α}
    {e : String × α} :
    e ∈ dictSet l k v ↔ e = (k, v) ∨ (e ∈ l ∧ e.1 ≠ k) := by
  simp [dictSet, mem_dictDel]

theorem mem_of_dictGet_eq_some {α : Type} {l : List (String × α)} {k : String}
    {v : α} (h : dictGet l k = some v) : (k, v) ∈ l := by
  unfold dictGet at h
  obtain ⟨e, he, hev⟩ := Option.map_eq_some.mp h
  have hk' := List.find?_some he
  have hk : e.1 = k := by simpa using hk'
  have hm := List.mem_of_find?_eq_some he
  obtain ⟨e1, e2⟩ := e
  simp only at hk hev
  rw [hk, hev] at hm
  exact hm

theorem dictGet_isSome_of_mem {α : Type} {l : List (String × α)} {k : String}
    {v : α} (h : (k, v) ∈ l) : dictGet l k ≠ none := by
  intro hn
  unfold dictGet at hn
  have := List.find?_eq_none.mp (Option.map_eq_none.mp hn) (k, v) h
  simp at this

theorem dictGet_eq_some_of_mem {α : Type} {l : List (String × α)} {k : String}
    {v : α} (hnd : (l.map Prod.fst).Nodup) (h : (k, v) ∈ l) :
    dictGet l k = some v := by
  induction l with
  | nil => simp at h
  | cons e t ih =>
    rcases List.mem_cons.mp h with he | ht
    · subst he
      simp [dictGet, List.find?]
    · by_cases hk : e.1 = k
      · exfalso
        have : k ∈ t.map Prod.fst := List.mem_map.mpr ⟨(k, v), ht, rfl⟩
        rw [← hk] at this
        exact (List.nodup_cons.mp (by simpa using hnd)).1 this
      · have : dictGet (e :: t) k = dictGet t k := by
          simp [dictGet, List.find?, hk]
        rw [this]
        exact ih (List.nodup_cons.mp (by simpa using hnd)).2 ht

theorem dictDel_keys_nodup {α : Type} {l : List (String × α)} {k : String}
    (h : (l.map Prod.fst).Nodup) : ((dictDel l k).map Prod.fst).Nodup :=
  ((List.filter_sublist l).map Prod.fst).nodup h

theorem dictSet_keys_nodup {α : Type} {l : List (String × α)} {k : String}
    {v : α} (h : (l.map Prod.fst).Nodup) :
    ((dictSet l k v).map Prod.fst).Nodup := by
  simp only [dictSet, List.map_cons]
  refine List.nodup_cons.mpr ⟨?_, dictDel_keys_nodup h⟩
  intro hk
  obtain ⟨e, he, hek⟩ := List.mem_map.mp hk
  exact (mem_dictDel.mp he).2 hek

theorem dict_vals_eq_of_nodup_keys {α : Type} {l : List (String × α)}
    {k : String} {v1 v2 : α} (hnd : (l.map Prod.fst).Nodup)
    (h1 : (k, v1) ∈ l) (h2 : (k, v2) ∈ l) : v1 = v2 := by
  have e1 := dictGet_eq_some_of_mem hnd h1
  have e2 := dictGet_eq_some_of_mem hnd h2
  rw [e1] at e2
  exact Option.some.inj e2

/-! ## The per-path pending-operation invariant (claim C6) -/

/-- Propositional form of `isLive`. -/
def LiveP (st : HandlerState) (tid : Nat) : Prop :=
  (∃ t ∈ st.armed, t.id = tid) ∧ tid ∉ st.canceled ∧ tid ∉ st.fired

theorem isLive_iff {st : HandlerState} {tid : Nat} :
    isLive st tid = true ↔ LiveP st tid := by
  simp [isLive, LiveP, List.any_eq_true, and_assoc]

/-- Well-formedness of the handler's timer bookkeeping.  The last field is
the heart of the per-path invariant: every live timer is the one currently
registered for its path in `_pending_timers`. -/
structure TimersWF (st : HandlerState) : Prop where
  armed_nodup : (st.armed.map Timer.id).Nodup
  armed_lt : ∀ t ∈ st.armed, t.id < st.nextId
  canceled_lt : ∀ c ∈ st.canceled, c < st.nextId
  fired_lt : ∀ f ∈ st.fired, f < st.nextId
  pt_keys_nodup : (st.pending_timers.map Prod.fst).Nodup
  pf_keys_nodup : (st.pending_files.map Prod.fst).Nodup
  pt_vals_lt : ∀ e ∈ st.pending_timers, e.2 < st.nextId
  live_in_pt : ∀ t ∈ st.armed, LiveP st t.id →
    (t.path, t.id) ∈ st.pending_timers

theorem timersWF_initHandler (db : DB) : TimersWF (initHandler db) := by
  constructor <;> simp [initHandler, LiveP]

/-- `_schedule_process` preserves the bookkeeping invariant. -/
theorem timersWF_schedule_process {st : HandlerState} (h : TimersWF st)
    (path eventType : String) :
    TimersWF (schedule_process st path eventType) := by
  set st' := schedule_process st path eventType with hst'
  have harmed : st'.armed = st.armed ++ [⟨st.nextId, path, eventType⟩] := rfl
  have hnext : st'.nextId = st.nextId + 1 := rfl
  have hpt : st'.pending_timers = dictSet st.pending_timers path st.nextId := rfl
  have hpf : st'.pending_files = dictSet st.pending_files path eventType := rfl
  have hfired : st'.fired = st.fired := rfl
  have hcanc : st'.canceled =
      (match dictGet st.pending_timers path with
       | some tid => tid :: st.canceled
       | none => st.canceled) := rfl
  constructor
  · rw [harmed]
    simp only [List.map_append, List.map_cons, List.map_nil]
    rw [List.nodup_append]
    refine ⟨h.armed_nodup, List.nodup_singleton _, ?_⟩
    intro x hx
    simp only [List.mem_singleton]
    intro hxe
    obtain ⟨t, ht, hte⟩ := List.mem_map.mp hx
    have := h.armed_lt t ht
    omega
  · rw [harmed, hnext]
    intro t ht
    rcases List.mem_append.mp ht with hin | hone
    · have := h.armed_lt t hin; omega
    · simp only [List.mem_singleton] at hone
      subst hone; simp
  · rw [hcanc, hnext]
    cases hdg : dictGet st.pending_timers path with
    | none =>
      simp only [hdg]
      intro c hc
      have := h.canceled_lt c hc; omega
    | some tid =>
      simp only [hdg]
      intro c hc
      rcases List.mem_cons.mp hc with hce | hct
      · subst hce
        have := h.pt_vals_lt _ (mem_of_dictGet_eq_some hdg)
        simp only at this
        omega
      · have := h.canceled_lt c hct; omega
  · rw [hfired, hnext]
    intro f hf
    have := h.fired_lt f hf; omega
  · rw [hpt]
    exact dictSet_keys_nodup h.pt_keys_nodup
  · rw [hpf]
    exact dictSet_keys_nodup h.pf_keys_nodup
  · rw [hpt, hnext]
    intro e he
    rcases mem_dictSet.mp he with hee | ⟨hin, _⟩
    · subst hee; simp
    · have := h.pt_vals_lt e hin; omega
  · rw [harmed, hpt]
    intro t ht hlive
    rcases List.mem_append.mp ht with hin | hone
    · -- an old timer that is still live after the scheduling step
      have hne_canc : t.id ∉ st'.canceled := hlive.2.1
      have hlive_old : LiveP st t.id := by
        refine ⟨⟨t, hin, rfl⟩, ?_, ?_⟩
        · intro hc
          apply hne_canc
          rw [hcanc]
          cases hdg : dictGet st.pending_timers path with
          | none => simpa [hdg] using hc
          | some tid => simp only [hdg]; exact List.mem_cons_of_mem _ hc
        · intro hf
          exact hlive.2.2 (by rw [hfired]; exact hf)
      have hmem := h.live_in_pt t hin hlive_old
      have hpne : t.path ≠ path := by
        intro hpe
        rw [hpe] at hmem
        have hdgsome := dictGet_eq_some_of_mem h.pt_keys_nodup hmem
        apply hlive.2.1
        rw [hcanc, hdgsome]
        exact List.mem_cons_self _ _
      exact mem_dictSet.mpr (Or.inr ⟨hmem, by simpa using hpne⟩)
    · simp only [List.mem_singleton] at hone
      subst hone
      exact mem_dictSet.mpr (Or.inl rfl)

/-- `processAndEmit` touches only the catalog, the emit counter and the index
log, so timer bookkeeping well-formedness is untouched. -/
theorem timersWF_processAndEmit {st : HandlerState} (h : TimersWF st)
    (p : String) (orc : IndexOracle) : TimersWF (processAndEmit st p orc) := by
  obtain ⟨a1, a2, a3, a4, a5, a6, a7, a8⟩ := h
  exact ⟨a1, a2, a3, a4, a5, a6, a7, a8⟩

/-- The timer callback preserves the bookkeeping invariant. -/
theorem timersWF_fireTimer {st : HandlerState} (h : TimersWF st)
    (tid : Nat) (orc : FireOracle) : TimersWF (fireTimer st tid orc) := by
  unfold fireTimer
  cases hfind : st.armed.find? (fun t => t.id = tid) with
  | none => exact h
  | some t =>
    by_cases hlive : isLive st tid = true
    · have htid : t.id = tid := by simpa using List.find?_some hfind
      have htmem : t ∈ st.armed := List.mem_of_find?_eq_some hfind
      have hLP : LiveP st tid := isLive_iff.mp hlive
      have hpt_mem : (t.path, tid) ∈ st.pending_timers := by
        have := h.live_in_pt t htmem (htid ▸ hLP)
        rwa [htid] at this
      -- invariant for the dequeued intermediate state
      have h1 : TimersWF
          { st with
            fired := tid :: st.fired
            pending_files := dictDel st.pending_files t.path
            pending_timers := dictDel st.pending_timers t.path } := by
        constructor
        · exact h.armed_nodup
        · exact h.armed_lt
        · exact h.canceled_lt
        · intro f hf
          rcases List.mem_cons.mp hf with hfe | hft
          · subst hfe
            have hlt := h.armed_lt t htmem
            rw [htid] at hlt
            exact hlt
          · exact h.fired_lt f hft
        · exact dictDel_keys_nodup h.pt_keys_nodup
        · exact dictDel_keys_nodup h.pf_keys_nodup
        · intro e he
          exact h.pt_vals_lt e (mem_dictDel.mp he).1
        · intro t' ht' hlive'
          have hne : t'.id ≠ tid := by
            intro he
            exact hlive'.2.2 (by rw [he]; exact List.mem_cons_self _ _)
          have hlive_old : LiveP st t'.id := by
            refine ⟨⟨t', ht', rfl⟩, hlive'.2.1, ?_⟩
            intro hf
            exact hlive'.2.2 (List.mem_cons_of_mem _ hf)
          have hmem := h.live_in_pt t' ht' hlive_old
          have hpne : t'.path ≠ t.path := by
            intro hpe
            rw [hpe] at hmem
            exact hne (dict_vals_eq_of_nodup_keys h.pt_keys_nodup hmem hpt_mem)
          exact mem_dictDel.mpr ⟨hmem, by simpa using hpne⟩
      simp only [hlive, if_true]
      by_cases he : orc.pathExists = false
      · simpa [he] using h1
      · rw [if_neg he]
        cases orc.probe with
        | sizes s1 s2 =>
          by_cases hs : s1 = s2
          · simpa [hs] using timersWF_processAndEmit h1 t.path orc.ix
          · simpa [hs] using timersWF_schedule_process h1 t.path t.eventType
        | readError => exact timersWF_processAndEmit h1 t.path orc.ix
    · simp only [Bool.not_eq_true] at hlive
      simpa [hlive] using h

/-- `on_created` preserves the bookkeeping invariant. -/
theorem timersWF_on_created {st : HandlerState} (h : TimersWF st)
    (path : String) : TimersWF (on_created st path) := by
  unfold on_created
  split
  · exact h
  · split
    · exact timersWF_schedule_process h path "new"
    · exact h

/-- `on_modified` preserves the bookkeeping invariant. -/
theorem timersWF_on_modified {st : HandlerState} (h : TimersWF st)
    (path : String) (pe : Bool) : TimersWF (on_modified st path pe) := by
  unfold on_modified
  split
  · exact h
  · split
    · exact timersWF_schedule_process h path "modified"
    · exact h

/-- `on_deleted` preserves the bookkeeping invariant (it only touches the
catalog and the emit counter). -/
theorem timersWF_on_deleted {st : HandlerState} (h : TimersWF st)
    (path : String) : TimersWF (on_deleted st path) := by
  unfold on_deleted
  split
  · obtain ⟨a1, a2, a3, a4, a5, a6, a7, a8⟩ := h
    exact ⟨a1, a2, a3, a4, a5, a6, a7, a8⟩
  · exact h

/-- `on_moved` preserves the bookkeeping invariant. -/
theorem timersWF_on_moved {st : HandlerState} (h : TimersWF st)
    (oldPath newPath : String) (ne : Bool) :
    TimersWF (on_moved st oldPath newPath ne) := by
  unfold on_moved
  split
  · split
    · exact timersWF_schedule_process h newPath "moved"
    · exact h
  · split
    · -- the cancel-old-path block, then delete_track, then scheduling
      have h1 : TimersWF
          (match dictGet st.pending_timers oldPath with
           | some tid =>
             { st with
               canceled := tid :: st.canceled
               pending_files := dictDel st.pending_files oldPath
               pending_timers := dictDel st.pending_timers oldPath }
           | none => st) := by
        cases hdg : dictGet st.pending_timers oldPath with
        | none => simpa using h
        | some tid =>
          have hpt_mem : (oldPath, tid) ∈ st.pending_timers :=
            mem_of_dictGet_eq_some hdg
          simp only
          constructor
          · exact h.armed_nodup
          · exact h.armed_lt
          · intro c hc
            rcases List.mem_cons.mp hc with hce | hct
            · subst hce
              have := h.pt_vals_lt _ hpt_mem
              simpa using this
            · exact h.canceled_lt c hct
          · exact h.fired_lt
          · exact dictDel_keys_nodup h.pt_keys_nodup
          · exact dictDel_keys_nodup h.pf_keys_nodup
          · intro e he
            exact h.pt_vals_lt e (mem_dictDel.mp he).1
          · intro t' ht' hlive'
            have hne : t'.id ≠ tid := by
              intro he
              exact hlive'.2.1 (by rw [he]; exact List.mem_cons_self _ _)
            have hlive_old : LiveP st t'.id := by
              refine ⟨⟨t', ht', rfl⟩, ?_, hlive'.2.2⟩
              intro hc
              exact hlive'.2.1 (List.mem_cons_of_mem _ hc)
            have hmem := h.live_in_pt t' ht' hlive_old
            have hpne : t'.path ≠ oldPath := by
              intro hpe
              rw [hpe] at hmem
              exact hne (dict_vals_eq_of_nodup_keys h.pt_keys_nodup hmem hpt_mem)
            exact mem_dictDel.mpr ⟨hmem, by simpa using hpne⟩
      have h2 : TimersWF
          { (match dictGet st.pending_timers oldPath with
             | some tid =>
               { st with
                 canceled := tid :: st.canceled
                 pending_files := dictDel st.pending_files oldPath
                 pending_timers := dictDel st.pending_timers oldPath }
             | none => st) with
            db := DBService.delete_track
              (match dictGet st.pending_timers oldPath with
               | some tid =>
                 { st with
                   canceled := tid :: st.canceled
                   pending_files := dictDel st.pending_files oldPath
                   pending_timers := dictDel st.pending_timers oldPath }
               | none => st).db oldPath } := by
        obtain ⟨a1, a2, a3, a4, a5, a6, a7, a8⟩ := h1
        exact ⟨a1, a2, a3, a4, a5, a6, a7, a8⟩
      exact timersWF_schedule_process h2 newPath "moved"
    · split
      · obtain ⟨a1, a2, a3, a4, a5, a6, a7, a8⟩ := h
        exact ⟨a1, a2, a3, a4, a5, a6, a7, a8⟩
      · exact h

/-- Every event step preserves the bookkeeping invariant. -/
theorem timersWF_step {st : HandlerState} (h : TimersWF st) (e : WEvent) :
    TimersWF (step st e) := by
  cases e with
  | created path => exact timersWF_on_created h path
  | modified path pe => exact timersWF_on_modified h path pe
  | deleted path => exact timersWF_on_deleted h path
  | moved oldPath newPath ne => exact timersWF_on_moved h oldPath newPath ne
  | fire tid orc => exact timersWF_fireTimer h tid orc

/-- The bookkeeping invariant holds in every reachable state. -/
theorem timersWF_run (db : DB) (evs : List WEvent) :
    TimersWF (run (initHandler db) evs) := by
  suffices hgen : ∀ st, TimersWF st → TimersWF (run st evs) from
    hgen _ (timersWF_initHandler db)
  induction evs with
  | nil => exact fun st h => h
  | cons e t ih => exact fun st h => ih (step st e) (timersWF_step h e)

/-- From the invariant: two live timers for the same path coincide. -/
theorem live_unique_per_path {st : HandlerState} (h : TimersWF st)
    {t1 t2 : Timer} (h1 : t1 ∈ st.armed) (h2 : t2 ∈ st.armed)
    (hl1 : LiveP st t1.id) (hl2 : LiveP st t2.id) (hp : t1.path = t2.path) :
    t1 = t2 := by
  have m1 := h.live_in_pt t1 h1 hl1
  have m2 := h.live_in_pt t2 h2 hl2
  rw [hp] at m1
  have hid : t1.id = t2.id :=
    dict_vals_eq_of_nodup_keys h.pt_keys_nodup m1 m2
  exact List.inj_on_of_nodup_map h.armed_nodup h1 h2 hid

/-- `_schedule_process` is last-event-wins: it leaves no previously armed
timer for the path live, and the freshly armed timer is live. -/
theorem schedule_cancels_previous {st : HandlerState} (h : TimersWF st)
    (p et : String) :
    (∀ t ∈ st.armed, t.path = p →
      isLive (schedule_process st p et) t.id = false) ∧
    isLive (schedule_process st p et) st.nextId = true := by
  set st' := schedule_process st p et with hst'
  have hcanc : st'.canceled =
      (match dictGet st.pending_timers p with
       | some tid => tid :: st.canceled
       | none => st.canceled) := rfl
  constructor
  · intro t ht htp
    rw [Bool.eq_false_iff]
    intro htrue
    have hlive' : LiveP st' t.id := isLive_iff.mp htrue
    by_cases hold : LiveP st t.id
    · have hmem := h.live_in_pt t ht hold
      rw [htp] at hmem
      have hdg := dictGet_eq_some_of_mem h.pt_keys_nodup hmem
      apply hlive'.2.1
      rw [hcanc, hdg]
      exact List.mem_cons_self _ _
    · apply hold
      refine ⟨⟨t, ht, rfl⟩, ?_, hlive'.2.2⟩
      intro hc
      apply hlive'.2.1
      rw [hcanc]
      cases hdg : dictGet st.pending_timers p with
      | none => simpa [hdg] using hc
      | some tid => exact List.mem_cons_of_mem _ hc
  · apply isLive_iff.mpr
    refine ⟨⟨⟨st.nextId, p, et⟩, ?_, rfl⟩, ?_, ?_⟩
    · show _ ∈ st.armed ++ [⟨st.nextId, p, et⟩]
      simp
    · intro hc
      rw [hcanc] at hc
      have : st.nextId < st.nextId := by
        cases hdg : dictGet st.pending_timers p with
        | none =>
          rw [hdg] at hc
          exact h.canceled_lt _ hc
        | some tid =>
          rw [hdg] at hc
          rcases List.mem_cons.mp hc with hce | hct
          · have := h.pt_vals_lt _ (mem_of_dictGet_eq_some hdg)
            simp only at this
            omega
          · exact h.canceled_lt _ hct
      omega
    · intro hf
      have : st.nextId < st.nextId := h.fired_lt _ hf
      omega

/-- Claim C6: in every reachable handler state at most one pending operation
exists per path — at most one live timer per path, and the
`_pending_timers` / `_pending_files` dicts each hold at most one entry per
path — and arming a new operation for a path (which is what every
created/modified/moved event that acts does, via `_schedule_process`) cancels
every previously armed timer for that same path and installs the fresh timer
as the live one, rather than queuing a second operation. -/
theorem claim6_one_pending_per_path (db0 : DB) (evs : List WEvent)
    (t1 t2 : Timer) (p et : String)
    (h1 : t1 ∈ (run (initHandler db0) evs).armed)
    (h2 : t2 ∈ (run (initHandler db0) evs).armed)
    (hl1 : isLive (run (initHandler db0) evs) t1.id = true)
    (hl2 : isLive (run (initHandler db0) evs) t2.id = true)
    (hp : t1.path = t2.path) :
    t1 = t2 ∧
    ((run (initHandler db0) evs).pending_timers.map Prod.fst).Nodup ∧
    ((run (initHandler db0) evs).pending_files.map Prod.fst).Nodup ∧
    (∀ t ∈ (run (initHandler db0) evs).armed, t.path = p →
      isLive (schedule_process (run (initHandler db0) evs) p et) t.id = false) ∧
    isLive (schedule_process (run (initHandler db0) evs) p et)
      (run (initHandler db0) evs).nextId = true := by
  have hwf := timersWF_run db0 evs
  refine ⟨live_unique_per_path hwf h1 h2 (isLive_iff.mp hl1)
      (isLive_iff.mp hl2) hp,
    hwf.pt_keys_nodup, hwf.pf_keys_nodup,
    (schedule_cancels_previous hwf p et).1,
    (schedule_cancels_previous hwf p et).2⟩

/-- Witness for C6 at a concrete run: after a created and then a modified
event for `/m/a.mp3`, the one live timer for that path is timer 1 (timer 0
was canceled and replaced), the pending dicts have unique keys, and a
further scheduling for the path would cancel both previous timers and leave
the fresh timer 2 live. -/
theorem claim6_witness :
    (⟨1, "/m/a.mp3", "modified"⟩ : Timer) = ⟨1, "/m/a.mp3", "modified"⟩ ∧
    ((run (initHandler []) [WEvent.created "/m/a.mp3",
        WEvent.modified "/m/a.mp3" true]).pending_timers.map Prod.fst).Nodup ∧
    ((run (initHandler []) [WEvent.created "/m/a.mp3",
        WEvent.modified "/m/a.mp3" true]).pending_files.map Prod.fst).Nodup ∧
    (∀ t ∈ (run (initHandler []) [WEvent.created "/m/a.mp3",
        WEvent.modified "/m/a.mp3" true]).armed, t.path = "/m/a.mp3" →
      isLive (schedule_process (run (initHandler []) [WEvent.created "/m/a.mp3",
        WEvent.modified "/m/a.mp3" true]) "/m/a.mp3" "new") t.id = false) ∧
    isLive (schedule_process (run (initHandler []) [WEvent.created "/m/a.mp3",
        WEvent.modified "/m/a.mp3" true]) "/m/a.mp3" "new")
      (run (initHandler []) [WEvent.created "/m/a.mp3",
        WEvent.modified "/m/a.mp3" true]).nextId = true :=
  claim6_one_pending_per_path [] [WEvent.created "/m/a.mp3",
      WEvent.modified "/m/a.mp3" true]
    ⟨1, "/m/a.mp3", "modified"⟩ ⟨1, "/m/a.mp3", "modified"⟩ "/m/a.mp3" "new"
    (by decide) (by decide) (by decide) (by decide) (by decide)

/-! ## Transient-artifact paths and the indexer (claim C7) -/

/-- Is the event a rename (`on_moved`) event? -/
def isMovedEvent : WEvent → Bool
  | WEvent.moved _ _ _ => true
  | _ => false

/-- An event sequence containing no rename events. -/
def noMoved (evs : List WEvent) : Bool :=
  evs.all (fun e => !isMovedEvent e)

/-- Invariant used for C7: no armed timer captures a transient-artifact path
and no transient-artifact path has been handed to the indexer. -/
structure NoTempWF (st : HandlerState) : Prop where
  armed_paths : ∀ t ∈ st.armed, is_temp_file t.path = false
  indexed_paths : ∀ p ∈ st.indexed, is_temp_file p = false

theorem noTempWF_schedule_process {st : HandlerState} (h : NoTempWF st)
    {path : String} (hp : is_temp_file path = false) (et : String) :
    NoTempWF (schedule_process st path et) := by
  constructor
  · intro t ht
    rcases List.mem_append.mp ht with hin | hone
    · exact h.armed_paths t hin
    · simp only [List.mem_singleton] at hone
      subst hone
      exact hp
  · exact h.indexed_paths

theorem noTempWF_processAndEmit {st : HandlerState} (h : NoTempWF st)
    {path : String} (hp : is_temp_file path = false) (orc : IndexOracle) :
    NoTempWF (processAndEmit st path orc) := by
  constructor
  · exact h.armed_paths
  · intro p hpmem
    rcases List.mem_append.mp hpmem with hin | hone
    · exact h.indexed_paths p hin
    · simp only [List.mem_singleton] at hone
      subst hone
      exact hp

theorem noTempWF_fireTimer {st : HandlerState} (h : NoTempWF st)
    (tid : Nat) (orc : FireOracle) : NoTempWF (fireTimer st tid orc) := by
  unfold fireTimer
  cases hfind : st.armed.find? (fun t => t.id = tid) with
  | none => exact h
  | some t =>
    by_cases hlive : isLive st tid = true
    · have htmem : t ∈ st.armed := List.mem_of_find?_eq_some hfind
      have htp : is_temp_file t.path = false := h.armed_paths t htmem
      have h1 : NoTempWF
          { st with
            fired := tid :: st.fired
            pending_files := dictDel st.pending_files t.path
            pending_timers := dictDel st.pending_timers t.path } :=
        ⟨h.armed_paths, h.indexed_paths⟩
      simp only [hlive, if_true]
      by_cases he : orc.pathExists = false
      · simpa [he] using h1
      · rw [if_neg he]
        cases orc.probe with
        | sizes s1 s2 =>
          by_cases hs : s1 = s2
          · simpa [hs] using noTempWF_processAndEmit h1 htp orc.ix
          · simpa [hs] using noTempWF_schedule_process h1 htp t.eventType
        | readError => exact noTempWF_processAndEmit h1 htp orc.ix
    · simp only [Bool.not_eq_true] at hlive
      simpa [hlive] using h

/-- Created, modified, deleted and timer-fired steps preserve the
no-transient-path invariant (moved steps need not, see the
counterexample to C7). -/
theorem noTempWF_step {st : HandlerState} (h : NoTempWF st) (e : WEvent)
    (hnm : isMovedEvent e = false) :
    NoTempWF (step st e) := by
  cases e with
  | created path =>
    show NoTempWF (on_created st path)
    unfold on_created
    by_cases ht : is_temp_file path = true
    · simpa [ht] using h
    · rw [if_neg ht]
      split
      · exact noTempWF_schedule_process h (by simpa using ht) "new"
      · exact h
  | modified path pe =>
    show NoTempWF (on_modified st path pe)
    unfold on_modified
    by_cases ht : is_temp_file path = true
    · simpa [ht] using h
    · rw [if_neg ht]
      split
      · exact noTempWF_schedule_process h (by simpa using ht) "modified"
      · exact h
  | deleted path =>
    show NoTempWF (on_deleted st path)
    unfold on_deleted
    split
    · exact ⟨h.armed_paths, h.indexed_paths⟩
    · exact h
  | moved oldPath newPath ne => simp [isMovedEvent] at hnm
  | fire tid orc => exact noTempWF_fireTimer h tid orc

/-- The no-transient-path invariant holds in every state reachable without
rename events. -/
theorem noTempWF_run (db : DB) (evs : List WEvent) (hnm : noMoved evs = true) :
    NoTempWF (run (initHandler db) evs) := by
  have hgen : ∀ (l : List WEvent) (st : HandlerState), noMoved l = true →
      NoTempWF st → NoTempWF (run st l) := by
    intro l
    induction l with
    | nil => exact fun st _ h => h
    | cons e t ih =>
      intro st hl h
      have hl' := hl
      simp only [noMoved, List.all_cons, Bool.and_eq_true, Bool.not_eq_true',
        Bool.not_eq_true] at hl'
      exact ih (step st e) (by simpa [noMoved] using hl'.2)
        (noTempWF_step h e hl'.1)
  exact hgen evs (initHandler db) hnm
    ⟨by simp [initHandler], by simp [initHandler]⟩

/-- Counterexample to claim C7 as stated: `/m/song.part.mp3` is a transient
artifact by the claim's own definition (its name contains `.part`), yet a
rename event from the transient `/m/a.part` to this existing, supported-audio
destination arms a settle timer on it, and the timer's firing (file present,
two equal size samples, readable tags) passes the transient path to the
Indexer and catalogs it. -/
theorem claim7_counterexample :
    is_temp_file "/m/song.part.mp3" = true ∧
    (run (initHandler [])
        [WEvent.moved "/m/a.part" "/m/song.part.mp3" true,
         WEvent.fire 0 ⟨true, ProbeOutcome.sizes 5 5,
           ⟨true, ReadResult.tags (some ⟨"T", "A", "B", true, 9⟩)⟩⟩]).indexed
      = ["/m/song.part.mp3"] ∧
    DBService.track_exists
      (run (initHandler [])
        [WEvent.moved "/m/a.part" "/m/song.part.mp3" true,
         WEvent.fire 0 ⟨true, ProbeOutcome.sizes 5 5,
           ⟨true, ReadResult.tags (some ⟨"T", "A", "B", true, 9⟩)⟩⟩]).db
      "/m/song.part.mp3" = true := by
  decide

/-- Claim C7 as amended: over every event sequence free of rename events, a
transient-artifact path is never passed to the Indexer — created and
modified events for such a path are ignored outright (no timer armed, state
unchanged), and no timer-fired action indexes it.  (A rename event whose old
path is transient and whose destination is existing supported audio can arm
a timer on a destination whose *name* contains `.part`, which is how the
counterexample defeats the unrestricted claim.) -/
theorem claim7_transient_never_indexed_without_renames (db0 : DB)
    (evs : List WEvent) (st : HandlerState) (p : String) (pe : Bool)
    (hnm : noMoved evs = true) (hp : is_temp_file p = true) :
    (∀ q ∈ (run (initHandler db0) evs).indexed, is_temp_file q = false) ∧
    on_created st p = st ∧ on_modified st p pe = st := by
  refine ⟨(noTempWF_run db0 evs hnm).indexed_paths, ?_, ?_⟩
  · unfold on_created
    rw [if_pos hp]
  · unfold on_modified
    rw [if_pos hp]

/-- Witness for the amended C7 at a concrete run: a created and a modified
event for the transient `/m/song.mp3.part` (among events for a real audio
file) index no transient path and leave the handler state unchanged. -/
theorem claim7_witness :
    (∀ q ∈ (run (initHandler [])
        [WEvent.created "/m/song.mp3.part",
         WEvent.created "/m/other.mp3",
         WEvent.fire 0 ⟨true, ProbeOutcome.sizes 4 4,
           ⟨true, ReadResult.tags (some ⟨"T", "A", "B", true, 7⟩)⟩⟩]).indexed,
      is_temp_file q = false) ∧
    on_created (initHandler []) "/m/song.mp3.part" = initHandler [] ∧
    on_modified (initHandler []) "/m/song.mp3.part" true = initHandler [] :=
  claim7_transient_never_indexed_without_renames []
    [WEvent.created "/m/song.mp3.part",
     WEvent.created "/m/other.mp3",
     WEvent.fire 0 ⟨true, ProbeOutcome.sizes 4 4,
       ⟨true, ReadResult.tags (some ⟨"T", "A", "B", true, 7⟩)⟩⟩]
    (initHandler []) "/m/song.mp3.part" true (by decide) (by decide)

/-! ## Deletion events and pending timers (claim C2) -/

/-- Counterexample to claim C2 as stated: after a created event arms timer 0
for `/m/a.mp3`, a deleted event for the same path removes the catalog row
immediately — but the pending timer is *not* canceled: it is still live and
still registered, and when it later fires with the path existing again on
disk it re-creates the deleted record through the Indexer. -/
theorem claim2_counterexample :
    isLive (run (initHandler
        [⟨"/m/a.mp3", "T", "A", "B", Val.str "", Val.null, Val.num 0⟩])
        [WEvent.created "/m/a.mp3", WEvent.deleted "/m/a.mp3"]) 0 = true ∧
    (run (initHandler
        [⟨"/m/a.mp3", "T", "A", "B", Val.str "", Val.null, Val.num 0⟩])
        [WEvent.created "/m/a.mp3", WEvent.deleted "/m/a.mp3"]).pending_timers
      = [("/m/a.mp3", 0)] ∧
    DBService.track_exists
      (run (initHandler
        [⟨"/m/a.mp3", "T", "A", "B", Val.str "", Val.null, Val.num 0⟩])
        [WEvent.created "/m/a.mp3", WEvent.deleted "/m/a.mp3"]).db
      "/m/a.mp3" = false ∧
    DBService.track_exists
      (run (initHandler
        [⟨"/m/a.mp3", "T", "A", "B", Val.str "", Val.null, Val.num 0⟩])
        [WEvent.created "/m/a.mp3", WEvent.deleted "/m/a.mp3",
         WEvent.fire 0 ⟨true, ProbeOutcome.sizes 5 5,
           ⟨true, ReadResult.tags (some ⟨"T", "A", "B", true, 185⟩)⟩⟩]).db
      "/m/a.mp3" = true := by
  decide

/-- Helper: a timer firing whose `path.exists()` check is false changes
neither the catalog, nor the emit count, nor the index log. -/
theorem fireTimer_no_exists {st : HandlerState} {tid : Nat} {orc : FireOracle}
    (h : orc.pathExists = false) :
    (fireTimer st tid orc).db = st.db ∧
    (fireTimer st tid orc).emits = st.emits ∧
    (fireTimer st tid orc).indexed = st.indexed := by
  unfold fireTimer
  cases hf : st.armed.find? (fun t => t.id = tid) with
  | none => exact ⟨rfl, rfl, rfl⟩
  | some t =>
    by_cases hl : isLive st tid = true
    · simp [hl, h]
    · simp [hl]

/-- Claim C2 as amended: a deleted event on a managed-audio path invokes the
catalog delete-by-path immediately (no debounce) and emits a library-changed
notification, but it does *not* cancel a pending settle timer for that path
— the timer bookkeeping is untouched.  A surviving timer whose firing finds
the path gone (`path.exists()` false) performs no catalog mutation, no
emission and no indexing. -/
theorem claim2_deletion_immediate_but_no_cancel (st : HandlerState)
    (path : String) (tid : Nat) (orc : FireOracle)
    (ha : is_supported_audio path = true) (he : orc.pathExists = false) :
    (on_deleted st path).db = DBService.delete_track st.db path ∧
    (on_deleted st path).emits = st.emits + 1 ∧
    (on_deleted st path).pending_timers = st.pending_timers ∧
    (on_deleted st path).pending_files = st.pending_files ∧
    (on_deleted st path).canceled = st.canceled ∧
    (on_deleted st path).armed = st.armed ∧
    (fireTimer (on_deleted st path) tid orc).db = (on_deleted st path).db ∧
    (fireTimer (on_deleted st path) tid orc).emits
      = (on_deleted st path).emits ∧
    (fireTimer (on_deleted st path) tid orc).indexed
      = (on_deleted st path).indexed := by
  obtain ⟨h1, h2, h3⟩ := @fireTimer_no_exists (on_deleted st path) tid orc he
  unfold on_deleted
  rw [if_pos ha]
  unfold on_deleted at h1 h2 h3
  rw [if_pos ha] at h1 h2 h3
  exact ⟨rfl, rfl, rfl, rfl, rfl, rfl, h1, h2, h3⟩

/-- Witness for the amended C2 at a concrete state: one pending timer for
`/m/a.mp3`, then a deleted event, then the timer fires on the vanished
path. -/
theorem claim2_witness :
    (on_deleted (run (initHandler
        [⟨"/m/a.mp3", "T", "A", "B", Val.str "", Val.null, Val.num 0⟩])
        [WEvent.created "/m/a.mp3"]) "/m/a.mp3").db
      = DBService.delete_track (run (initHandler
        [⟨"/m/a.mp3", "T", "A", "B", Val.str "", Val.null, Val.num 0⟩])
        [WEvent.created "/m/a.mp3"]).db "/m/a.mp3" ∧
    (on_deleted (run (initHandler
        [⟨"/m/a.mp3", "T", "A", "B", Val.str "", Val.null, Val.num 0⟩])
        [WEvent.created "/m/a.mp3"]) "/m/a.mp3").emits
      = (run (initHandler
        [⟨"/m/a.mp3", "T", "A", "B", Val.str "", Val.null, Val.num 0⟩])
        [WEvent.created "/m/a.mp3"]).emits + 1 ∧
    (on_deleted (run (initHandler
        [⟨"/m/a.mp3", "T", "A", "B", Val.str "", Val.null, Val.num 0⟩])
        [WEvent.created "/m/a.mp3"]) "/m/a.mp3").pending_timers
      = (run (initHandler
        [⟨"/m/a.mp3", "T", "A", "B", Val.str "", Val.null, Val.num 0⟩])
        [WEvent.created "/m/a.mp3"]).pending_timers ∧
    (on_deleted (run (initHandler
        [⟨"/m/a.mp3", "T", "A", "B", Val.str "", Val.null, Val.num 0⟩])
        [WEvent.created "/m/a.mp3"]) "/m/a.mp3").pending_files
      = (run (initHandler
        [⟨"/m/a.mp3", "T", "A", "B", Val.str "", Val.null, Val.num 0⟩])
        [WEvent.created "/m/a.mp3"]).pending_files ∧
    (on_deleted (run (initHandler
        [⟨"/m/a.mp3", "T", "A", "B", Val.str "", Val.null, Val.num 0⟩])
        [WEvent.created "/m/a.mp3"]) "/m/a.mp3").canceled
      = (run (initHandler
        [⟨"/m/a.mp3", "T", "A", "B", Val.str "", Val.null, Val.num 0⟩])
        [WEvent.created "/m/a.mp3"]).canceled ∧
    (on_deleted (run (initHandler
        [⟨"/m/a.mp3", "T", "A", "B", Val.str "", Val.null, Val.num 0⟩])
        [WEvent.created "/m/a.mp3"]) "/m/a.mp3").armed
      = (run (initHandler
        [⟨"/m/a.mp3", "T", "A", "B", Val.str "", Val.null, Val.num 0⟩])
        [WEvent.created "/m/a.mp3"]).armed ∧
    (fireTimer (on_deleted (run (initHandler
        [⟨"/m/a.mp3", "T", "A", "B", Val.str "", Val.null, Val.num 0⟩])
        [WEvent.created "/m/a.mp3"]) "/m/a.mp3") 0
        ⟨false, ProbeOutcome.sizes 0 0, ⟨false, ReadResult.exc⟩⟩).db
      = (on_deleted (run (initHandler
        [⟨"/m/a.mp3", "T", "A", "B", Val.str "", Val.null, Val.num 0⟩])
        [WEvent.created "/m/a.mp3"]) "/m/a.mp3").db ∧
    (fireTimer (on_deleted (run (initHandler
        [⟨"/m/a.mp3", "T", "A", "B", Val.str "", Val.null, Val.num 0⟩])
        [WEvent.created "/m/a.mp3"]) "/m/a.mp3") 0
        ⟨false, ProbeOutcome.sizes 0 0, ⟨false, ReadResult.exc⟩⟩).emits
      = (on_deleted (run (initHandler
        [⟨"/m/a.mp3", "T", "A", "B", Val.str "", Val.null, Val.num 0⟩])
        [WEvent.created "/m/a.mp3"]) "/m/a.mp3").emits ∧
    (fireTimer (on_deleted (run (initHandler
        [⟨"/m/a.mp3", "T", "A", "B", Val.str "", Val.null, Val.num 0⟩])
        [WEvent.created "/m/a.mp3"]) "/m/a.mp3") 0
        ⟨false, ProbeOutcome.sizes 0 0, ⟨false, ReadResult.exc⟩⟩).indexed
      = (on_deleted (run (initHandler
        [⟨"/m/a.mp3", "T", "A", "B", Val.str "", Val.null, Val.num 0⟩])
        [WEvent.created "/m/a.mp3"]) "/m/a.mp3").indexed :=
  claim2_deletion_immediate_but_no_cancel
    (run (initHandler
      [⟨"/m/a.mp3", "T", "A", "B", Val.str "", Val.null, Val.num 0⟩])
      [WEvent.created "/m/a.mp3"])
    "/m/a.mp3" 0 ⟨false, ProbeOutcome.sizes 0 0, ⟨false, ReadResult.exc⟩⟩
    (by decide) (by decide)

/-! ## Read errors during the stability probe (claim C3) -/

/-- Counterexample to claim C3 as stated: timer 0 for `/m/b.mp3` fires; the
path exists but the two-sample stat probe raises a read error.  The source's
`except Exception: pass` swallows the error and falls through, so the
Indexer *is* invoked on that firing (the path is indexed and catalogued) and
nothing is rescheduled (no new timer is armed). -/
theorem claim3_counterexample :
    (run (initHandler [])
        [WEvent.created "/m/b.mp3",
         WEvent.fire 0 ⟨true, ProbeOutcome.readError,
           ⟨true, ReadResult.tags (some ⟨"T", "A", "B", true, 42⟩)⟩⟩]).indexed
      = ["/m/b.mp3"] ∧
    (run (initHandler [])
        [WEvent.created "/m/b.mp3",
         WEvent.fire 0 ⟨true, ProbeOutcome.readError,
           ⟨true, ReadResult.tags (some ⟨"T", "A", "B", true, 42⟩)⟩⟩]).armed.length
      = 1 ∧
    DBService.track_exists
      (run (initHandler [])
        [WEvent.created "/m/b.mp3",
         WEvent.fire 0 ⟨true, ProbeOutcome.readError,
           ⟨true, ReadResult.tags (some ⟨"T", "A", "B", true, 42⟩)⟩⟩]).db
      "/m/b.mp3" = true := by
  decide

/-- Claim C3 as amended: when a live timer fires on an existing path and the
two-sample stability probe raises a read error, the error is swallowed
(`except Exception: pass`) and processing *continues*: the Indexer is
invoked on that very firing with an emit, and no rescheduling happens (the
set of armed timers does not grow); only an observed size change causes a
reschedule. -/
theorem claim3_read_error_processes_anyway (st : HandlerState) (tid : Nat)
    (orc : FireOracle) (t : Timer)
    (hf : st.armed.find? (fun x => x.id = tid) = some t)
    (hl : isLive st tid = true)
    (he : orc.pathExists = true) (hp : orc.probe = ProbeOutcome.readError) :
    (fireTimer st tid orc).indexed = st.indexed ++ [t.path] ∧
    (fireTimer st tid orc).db
      = IndexService.process_file orc.ix st.db t.path ∧
    (fireTimer st tid orc).emits = st.emits + 1 ∧
    (fireTimer st tid orc).armed = st.armed := by
  simp only [fireTimer, hf, hl, if_true, hp]
  rw [if_neg (by simp [he])]
  exact ⟨rfl, rfl, rfl, rfl⟩

/-- Witness for the amended C3 at a concrete state. -/
theorem claim3_witness :
    (fireTimer (run (initHandler []) [WEvent.created "/m/b.mp3"]) 0
        ⟨true, ProbeOutcome.readError,
          ⟨true, ReadResult.tags (some ⟨"T", "A", "B", true, 42⟩)⟩⟩).indexed
      = (run (initHandler []) [WEvent.created "/m/b.mp3"]).indexed
        ++ ["/m/b.mp3"] ∧
    (fireTimer (run (initHandler []) [WEvent.created "/m/b.mp3"]) 0
        ⟨true, ProbeOutcome.readError,
          ⟨true, ReadResult.tags (some ⟨"T", "A", "B", true, 42⟩)⟩⟩).db
      = IndexService.process_file
          ⟨true, ReadResult.tags (some ⟨"T", "A", "B", true, 42⟩)⟩
          (run (initHandler []) [WEvent.created "/m/b.mp3"]).db "/m/b.mp3" ∧
    (fireTimer (run (initHandler []) [WEvent.created "/m/b.mp3"]) 0
        ⟨true, ProbeOutcome.readError,
          ⟨true, ReadResult.tags (some ⟨"T", "A", "B", true, 42⟩)⟩⟩).emits
      = (run (initHandler []) [WEvent.created "/m/b.mp3"]).emits + 1 ∧
    (fireTimer (run (initHandler []) [WEvent.created "/m/b.mp3"]) 0
        ⟨true, ProbeOutcome.readError,
          ⟨true, ReadResult.tags (some ⟨"T", "A", "B", true, 42⟩)⟩⟩).armed
      = (run (initHandler []) [WEvent.created "/m/b.mp3"]).armed :=
  claim3_read_error_processes_anyway
    (run (initHandler []) [WEvent.created "/m/b.mp3"]) 0
    ⟨true, ProbeOutcome.readError,
      ⟨true, ReadResult.tags (some ⟨"T", "A", "B", true, 42⟩)⟩⟩
    ⟨0, "/m/b.mp3", "new"⟩ (by decide) (by decide) (by decide) (by decide)

/-! ## `WatchService.stop_watching` (claim C4)

`WatchService` owns an `Observer`, a dict `watched_paths` mapping each
watched root to its `AudioFileHandler`, and the flag `is_running`.
`stop_watching` calls `observer.stop()`, `observer.join(timeout=5)`,
`watched_paths.clear()` and sets `is_running = False`.  None of that touches
any handler's `_pending_timers`: the `threading.Timer` threads hold their own
references to the handler and to the shared `DBService`, so armed timers
survive the stop and their callbacks still run.  The model keeps one
handler's state alongside the session fields (handlers for distinct roots
are independent). -/

structure WatchServiceState where
  /-- the keys of `self.watched_paths` -/
  watched_paths : List String
  /-- the state of a handler created by `start_watching` for one root -/
  handler : HandlerState
  /-- `self.is_running` -/
  is_running : Bool
deriving DecidableEq, Repr

/-- `WatchService.stop_watching`: when running, stop and join the observer
(no effect on timers), clear the root→handler dict, reset the flag.  The
handler object itself — in particular its timer bookkeeping — is not
mutated. -/
def stop_watching (w : WatchServiceState) : WatchServiceState :=
  if w.is_running then
    { w with watched_paths := [], is_running := false }
  else w

/-- Counterexample to claim C4 as stated: with timer 0 armed for
`/m/a.mp3`, `stop_watching` returns with `is_running` false — but the
pending-operation set is *not* empty, the timer is *not* canceled, and its
later firing still indexes the file and mutates the catalog. -/
theorem claim4_counterexample :
    (stop_watching
        ⟨["/m"], run (initHandler []) [WEvent.created "/m/a.mp3"], true⟩).is_running
      = false ∧
    (stop_watching
        ⟨["/m"], run (initHandler []) [WEvent.created "/m/a.mp3"], true⟩).handler.pending_files
      = [("/m/a.mp3", "new")] ∧
    isLive (stop_watching
        ⟨["/m"], run (initHandler []) [WEvent.created "/m/a.mp3"], true⟩).handler 0
      = true ∧
    DBService.track_exists
      (fireTimer
        (stop_watching
          ⟨["/m"], run (initHandler []) [WEvent.created "/m/a.mp3"], true⟩).handler
        0 ⟨true, ProbeOutcome.sizes 3 3,
          ⟨true, ReadResult.tags (some ⟨"T", "A", "B", true, 11⟩)⟩⟩).db
      "/m/a.mp3" = true := by
  decide

/-- Claim C4 as amended: after `stop_watching` returns on a running session,
`is_running` is false and the watched-roots set is empty, but the handler —
its pending-operation dicts and its armed, uncanceled timers included — is
exactly as it was: in-flight settle timers are not canceled, and a
previously armed timer may still fire and perform indexing and catalog
mutation afterwards. -/
theorem claim4_stop_clears_roots_but_cancels_nothing (w : WatchServiceState)
    (h : w.is_running = true) :
    (stop_watching w).is_running = false ∧
    (stop_watching w).watched_paths = [] ∧
    (stop_watching w).handler = w.handler := by
  unfold stop_watching
  rw [if_pos h]
  exact ⟨rfl, rfl, rfl⟩

/-- Witness for the amended C4 at a concrete session state. -/
theorem claim4_witness :
    (stop_watching
        ⟨["/m"], run (initHandler []) [WEvent.created "/m/a.mp3"], true⟩).is_running
      = false ∧
    (stop_watching
        ⟨["/m"], run (initHandler []) [WEvent.created "/m/a.mp3"], true⟩).watched_paths
      = [] ∧
    (stop_watching
        ⟨["/m"], run (initHandler []) [WEvent.created "/m/a.mp3"], true⟩).handler
      = run (initHandler []) [WEvent.created "/m/a.mp3"] :=
  claim4_stop_clears_roots_but_cancels_nothing
    ⟨["/m"], run (initHandler []) [WEvent.created "/m/a.mp3"], true⟩ (by decide)

/-! ## Renames whose destination is not managed audio (claim C5) -/

/-- Counterexample to claim C5 as stated: `/m/song.mp3` (managed audio, in
the catalog) is renamed to the transient artifact `/m/song.mp3.part` (which
exists but is not managed audio, so the destination is "not both managed
audio and existing").  The claim requires the old record to be deleted and a
notification emitted; the handler instead returns with the state entirely
unchanged — the record survives and nothing is emitted. -/
theorem claim5_counterexample :
    is_supported_audio "/m/song.mp3" = true ∧
    is_temp_file "/m/song.mp3.part" = true ∧
    (is_supported_audio "/m/song.mp3.part" = false) ∧
    on_moved
      (initHandler [⟨"/m/song.mp3", "T", "A", "B", Val.str "", Val.null, Val.num 0⟩])
      "/m/song.mp3" "/m/song.mp3.part" true
      = initHandler
          [⟨"/m/song.mp3", "T", "A", "B", Val.str "", Val.null, Val.num 0⟩] := by
  decide

/-- Claim C5 as amended: for a rename whose old path is managed audio and
whose new path is not both managed audio and existing, the outcome splits on
transience.  When neither path is a transient artifact, the old path's
catalog record is deleted, a library-changed notification is emitted, and no
pending operation is created (the handler state is otherwise untouched).
When the new path *is* a transient artifact (old path non-transient), the
event is ignored outright: no deletion, no notification, no pending
operation. -/
theorem claim5_old_record_deleted_unless_dest_transient (st : HandlerState)
    (oldPath newPath : String) (ne : Bool)
    (hot : is_temp_file oldPath = false)
    (hoa : is_supported_audio oldPath = true)
    (hna : (is_supported_audio newPath && ne) = false) :
    (is_temp_file newPath = false →
      on_moved st oldPath newPath ne
        = { st with
              db := DBService.delete_track st.db oldPath
              emits := st.emits + 1 }) ∧
    (is_temp_file newPath = true →
      on_moved st oldPath newPath ne = st) := by
  constructor
  · intro hnt
    unfold on_moved
    rw [if_neg (by simp [hot, hnt]), if_neg (by simp [hna]), if_pos hoa]
  · intro hnt
    unfold on_moved
    rw [if_pos (by simp [hnt]), if_neg (by simp [hot])]

/-- Witness for the amended C5 at concrete inputs: renaming `/m/song.mp3` to
the non-audio, non-transient `/m/song.txt` deletes the old record and emits;
renaming it to the transient `/m/song.mp3.part` changes nothing. -/
theorem claim5_witness :
    (is_temp_file "/m/song.txt" = false →
      on_moved
        (initHandler
          [⟨"/m/song.mp3", "T", "A", "B", Val.str "", Val.null, Val.num 0⟩])
        "/m/song.mp3" "/m/song.txt" true
        = { initHandler
              [⟨"/m/song.mp3", "T", "A", "B", Val.str "", Val.null, Val.num 0⟩] with
            db := DBService.delete_track
              (initHandler
                [⟨"/m/song.mp3", "T", "A", "B", Val.str "", Val.null, Val.num 0⟩]).db
              "/m/song.mp3"
            emits := (initHandler
              [⟨"/m/song.mp3", "T", "A", "B", Val.str "", Val.null, Val.num 0⟩]).emits
              + 1 }) ∧
    (is_temp_file "/m/song.txt" = true →
      on_moved
        (initHandler
          [⟨"/m/song.mp3", "T", "A", "B", Val.str "", Val.null, Val.num 0⟩])
        "/m/song.mp3" "/m/song.txt" true
        = initHandler
            [⟨"/m/song.mp3", "T", "A", "B", Val.str "", Val.null, Val.num 0⟩]) :=
  claim5_old_record_deleted_unless_dest_transient
    (initHandler [⟨"/m/song.mp3", "T", "A", "B", Val.str "", Val.null, Val.num 0⟩])
    "/m/song.mp3" "/m/song.txt" true (by decide) (by decide) (by decide)
